import Mathlib

/-!
Verification of the sampler layer of `mab/sampling.py` (MAB-VLSI).

The Python module is shallowly embedded below.  Attribute values (Python
floats) are modelled as rationals; only their plumbing matters to the
properties verified here, never real-number analysis.  Python dictionaries
with string keys are modelled as association lists in insertion order with
unique keys, exactly mirroring CPython dict semantics for the operations the
source uses (`dict(zip(...))`, `update`, `in`, `[]`).  Randomness
(`np.random.multivariate_normal`, `gaussian_kde.resample`) and the
external-process environment of `ToolSampler` are passed in as explicit
oracle functions, and `ToolSampler`'s side effects are recorded in an
explicit effect trace.  The module is 2018-era Python 2 code, so `map` is
eager (it returns a list).
-/

namespace MabVlsi

/-- Attribute values: Python floats, modelled as rationals. -/
abbrev Value := Rat

/-- A Python dict with string keys: an association list in insertion order
whose key uniqueness is maintained by `dictInsert`. -/
abbrev Dict := List (String × Value)

/-- The keys of a dict, in insertion order (`d.keys()`). -/
def dictKeys (d : Dict) : List String := d.map Prod.fst

/-- Python `k in d`. -/
def dictContains (d : Dict) (k : String) : Bool := (dictKeys d).contains k

/-- Python `d[k]` (first — hence, with unique keys, only — binding of `k`). -/
def dictLookup (d : Dict) (k : String) : Option Value :=
  match d with
  | [] => none
  | p :: rest => if p.1 = k then some p.2 else dictLookup rest k

/-- Python `d[k] = v`: overwrite in place when the key is present, append
otherwise (CPython dicts keep insertion order). -/
def dictInsert (d : Dict) (k : String) (v : Value) : Dict :=
  if dictContains d k then d.map (fun p => if p.1 = k then (k, v) else p)
  else d ++ [(k, v)]

/-- Python `d.update(e)`: fold the entries of `e` into `d`, `e` winning on
key clashes. -/
def dictUpdate (d e : Dict) : Dict := e.foldl (fun acc p => dictInsert acc p.1 p.2) d

/-- Python `dict(zip(ks, vs))`; `zip` truncates at the shorter sequence. -/
def dictOfZip (ks : List String) (vs : List Value) : Dict := dictUpdate [] (ks.zip vs)

/-- `utils.Sample` as consumed by this module: the merged attribute mapping
together with the metric and validity functions the sampler wraps it with. -/
structure Sample where
  attributes : Dict
  metric_function : Dict → Value
  valid_function : Dict → Bool

/-- `sampling.Sampler.__init__`: the abstract sampler's configuration. -/
structure Sampler where
  attribute_names : List String
  metric_function : Dict → Value
  valid_function : Dict → Bool
  constants : Dict

/-- `Sampler.make_sample`:
`attributes = dict(zip(self.attribute_names, attribute_values))`;
`attributes.update(self.constants)`;
`return Sample(attributes, self.metric_function, self.valid_function)`. -/
def Sampler.make_sample (s : Sampler) (attribute_values : List Value) : Sample :=
  { attributes := dictUpdate (dictOfZip s.attribute_names attribute_values) s.constants
    metric_function := s.metric_function
    valid_function := s.valid_function }

/- Dict lemmas. -/

theorem dictContains_iff (d : Dict) (k : String) :
    dictContains d k = true ↔ k ∈ dictKeys d := by
  simp [dictContains]

theorem dictLookup_eq_none_of_not_mem_keys (d : Dict) (k : String)
    (h : k ∉ dictKeys d) : dictLookup d k = none := by
  induction d with
  | nil => rfl
  | cons p d ih =>
    simp only [dictKeys, List.map_cons, List.mem_cons, not_or] at h
    simp only [dictLookup]
    rw [if_neg (fun hh => h.1 hh.symm)]
    exact ih h.2

theorem dictLookup_map_overwrite_ne (d : Dict) (k k' : String) (v : Value)
    (hne : k' ≠ k) :
    dictLookup (d.map (fun p => if p.1 = k then (k, v) else p)) k' = dictLookup d k' := by
  induction d with
  | nil => rfl
  | cons p d ih =>
    obtain ⟨a, b⟩ := p
    by_cases hak : a = k
    · subst hak
      simp only [List.map_cons, if_pos rfl, dictLookup]
      rw [if_neg (fun hh => hne hh.symm), if_neg (fun hh => hne hh.symm)]
      exact ih
    · simp only [List.map_cons, if_neg hak, dictLookup]
      by_cases hka : a = k'
      · rw [if_pos hka, if_pos hka]
      · rw [if_neg hka, if_neg hka]
        exact ih

theorem dictLookup_map_overwrite_eq (d : Dict) (k : String) (v : Value)
    (hmem : k ∈ dictKeys d) :
    dictLookup (d.map (fun p => if p.1 = k then (k, v) else p)) k = some v := by
  induction d with
  | nil => simp [dictKeys] at hmem
  | cons p d ih =>
    obtain ⟨a, b⟩ := p
    by_cases hak : a = k
    · simp only [List.map_cons, if_pos hak, dictLookup]
      simp
    · simp only [List.map_cons, if_neg hak, dictLookup]
      apply ih
      simp only [dictKeys, List.map_cons, List.mem_cons] at hmem
      rcases hmem with h | h
      · exact absurd h.symm hak
      · exact h

theorem dictLookup_append_single (d : Dict) (k k' : String) (v : Value) :
    dictLookup (d ++ [(k, v)]) k' =
      match dictLookup d k' with
      | some w => some w
      | none => if k = k' then some v else none := by
  induction d with
  | nil => rfl
  | cons p d ih =>
    simp only [List.cons_append, dictLookup]
    by_cases h : p.1 = k'
    · rw [if_pos h, if_pos h]
    · rw [if_neg h, if_neg h]
      exact ih

theorem dictLookup_dictInsert (d : Dict) (k k' : String) (v : Value) :
    dictLookup (dictInsert d k v) k' = if k = k' then some v else dictLookup d k' := by
  unfold dictInsert
  by_cases hc : dictContains d k
  · rw [if_pos hc]
    by_cases hk : k = k'
    · subst hk
      rw [if_pos rfl]
      exact dictLookup_map_overwrite_eq d k v ((dictContains_iff d k).1 hc)
    · rw [if_neg hk]
      exact dictLookup_map_overwrite_ne d k k' v (fun hh => hk hh.symm)
  · rw [if_neg hc]
    rw [dictLookup_append_single]
    by_cases hk : k = k'
    · subst hk
      have hnone : dictLookup d k = none := by
        apply dictLookup_eq_none_of_not_mem_keys
        intro hmem
        exact hc ((dictContains_iff d k).2 hmem)
      rw [hnone, if_pos rfl]
    · cases hl : dictLookup d k' with
      | some w => simp [hk]
      | none => simp [hk]

theorem dictUpdate_cons (d : Dict) (p : String × Value) (e : Dict) :
    dictUpdate d (p :: e) = dictUpdate (dictInsert d p.1 p.2) e := rfl

theorem dictLookup_dictUpdate_of_not_mem (d e : Dict) (k : String)
    (hk : k ∉ dictKeys e) :
    dictLookup (dictUpdate d e) k = dictLookup d k := by
  induction e generalizing d with
  | nil => rfl
  | cons p e ih =>
    simp only [dictKeys, List.map_cons, List.mem_cons, not_or] at hk
    rw [dictUpdate_cons, ih _ (by simpa [dictKeys] using hk.2), dictLookup_dictInsert,
      if_neg (fun hh => hk.1 hh.symm)]

theorem dictLookup_dictUpdate_of_mem (d e : Dict) (k : String) (v : Value)
    (hnd : (dictKeys e).Nodup) (hmem : (k, v) ∈ e) :
    dictLookup (dictUpdate d e) k = some v := by
  induction e generalizing d with
  | nil => cases hmem
  | cons p e ih =>
    simp only [dictKeys, List.map_cons, List.nodup_cons] at hnd
    rw [dictUpdate_cons]
    rcases List.mem_cons.1 hmem with heq | hmem'
    · subst heq
      rw [dictLookup_dictUpdate_of_not_mem _ _ _ hnd.1, dictLookup_dictInsert, if_pos rfl]
    · exact ih _ hnd.2 hmem'

theorem mem_dictKeys_dictInsert (d : Dict) (k a : String) (v : Value) :
    a ∈ dictKeys (dictInsert d k v) ↔ a ∈ dictKeys d ∨ a = k := by
  unfold dictInsert
  by_cases hc : dictContains d k
  · rw [if_pos hc]
    have hkd : k ∈ dictKeys d := (dictContains_iff d k).1 hc
    simp only [dictKeys, List.map_map, List.mem_map] at *
    constructor
    · rintro ⟨p, hp, hpa⟩
      by_cases hpk : p.1 = k
      · right
        rw [← hpa]
        simp [Function.comp, hpk]
      · left
        refine ⟨p, hp, ?_⟩
        rw [← hpa]
        simp [Function.comp, hpk]
    · rintro (⟨p, hp, hpa⟩ | rfl)
      · refine ⟨p, hp, ?_⟩
        by_cases hpk : p.1 = k
        · rw [← hpa]
          simp [Function.comp, hpk, hpa, hpk ▸ hpa]
        · simp only [Function.comp]
          rw [if_neg hpk]
          exact hpa
      · obtain ⟨p, hp, hpk⟩ := hkd
        refine ⟨p, hp, ?_⟩
        simp only [Function.comp]
        rw [if_pos hpk]
  · rw [if_neg hc]
    simp [dictKeys]

theorem mem_dictKeys_dictUpdate (d e : Dict) (a : String) :
    a ∈ dictKeys (dictUpdate d e) ↔ a ∈ dictKeys d ∨ a ∈ dictKeys e := by
  induction e generalizing d with
  | nil => simp [dictUpdate, dictKeys]
  | cons p e ih =>
    rw [dictUpdate_cons, ih, mem_dictKeys_dictInsert]
    simp only [dictKeys, List.map_cons, List.mem_cons]
    tauto

theorem map_fst_zip_eq_take (ks : List String) (vs : List Value) :
    (ks.zip vs).map Prod.fst = ks.take vs.length := by
  induction ks generalizing vs with
  | nil => simp
  | cons k ks ih =>
    cases vs with
    | nil => simp
    | cons v vs => simp [ih]

theorem zip_eq_zip_take (ks : List String) (vs : List Value) :
    ks.zip vs = ks.zip (vs.take ks.length) := by
  induction ks generalizing vs with
  | nil => simp
  | cons k ks ih =>
    cases vs with
    | nil => simp
    | cons v vs =>
      simp only [List.length_cons, List.take_succ_cons, List.zip_cons_cons]
      rw [← ih]

theorem getD_pair_mem_zip (ks : List String) (vs : List Value) (i : Nat)
    (hik : i < ks.length) (hiv : i < vs.length) :
    (ks.getD i "", vs.getD i 0) ∈ ks.zip vs := by
  induction ks generalizing vs i with
  | nil => simp at hik
  | cons k ks ih =>
    cases vs with
    | nil => simp at hiv
    | cons v vs =>
      cases i with
      | zero => simp [List.getD]
      | succ n =>
        simp only [List.zip_cons_cons, List.mem_cons, List.getD_cons_succ]
        right
        exact ih vs n (Nat.lt_of_succ_lt_succ hik) (Nat.lt_of_succ_lt_succ hiv)

theorem dictKeys_zip_nodup (ks : List String) (vs : List Value)
    (hnd : ks.Nodup) : (dictKeys (ks.zip vs)).Nodup := by
  have h1 : dictKeys (ks.zip vs) = ks.take vs.length := map_fst_zip_eq_take ks vs
  rw [h1]
  exact List.Nodup.sublist (List.take_sublist _ _) hnd

theorem dictLookup_dictOfZip (ks : List String) (vs : List Value) (i : Nat)
    (hnd : ks.Nodup) (hik : i < ks.length) (hiv : i < vs.length) :
    dictLookup (dictOfZip ks vs) (ks.getD i "") = some (vs.getD i 0) := by
  unfold dictOfZip
  exact dictLookup_dictUpdate_of_mem _ _ _ _ (dictKeys_zip_nodup ks vs hnd)
    (getD_pair_mem_zip ks vs i hik hiv)

/- Claim C1 and claim C10: `Sampler.make_sample`. -/

/-- C1: for every sampler and every value sequence whose length equals that of
`attribute_names`, `make_sample` returns a `Sample` whose attribute keys are
exactly `attribute_names ∪ constants.keys()`, with each attribute name bound
positionally to the corresponding value, every constant bound to its constant
value (constants overriding like-named sampled values), and the sampler's
metric and validity functions wrapped unchanged.  Stated for well-formed
schemas: distinct attribute names and constants with distinct keys (automatic
for a Python dict). -/
theorem make_sample_spec (s : Sampler) (values : List Value)
    (hlen : values.length = s.attribute_names.length)
    (hnd : s.attribute_names.Nodup)
    (hcd : (dictKeys s.constants).Nodup) :
    (∀ a, a ∈ dictKeys (s.make_sample values).attributes ↔
        a ∈ s.attribute_names ∨ a ∈ dictKeys s.constants) ∧
    (∀ i, i < s.attribute_names.length →
        s.attribute_names.getD i "" ∉ dictKeys s.constants →
        dictLookup (s.make_sample values).attributes (s.attribute_names.getD i "") =
          some (values.getD i 0)) ∧
    (∀ k v, (k, v) ∈ s.constants →
        dictLookup (s.make_sample values).attributes k = some v) ∧
    (s.make_sample values).metric_function = s.metric_function ∧
    (s.make_sample values).valid_function = s.valid_function := by
  refine ⟨?_, ?_, ?_, rfl, rfl⟩
  · intro a
    show a ∈ dictKeys (dictUpdate (dictOfZip s.attribute_names values) s.constants) ↔ _
    rw [mem_dictKeys_dictUpdate]
    unfold dictOfZip
    rw [mem_dictKeys_dictUpdate]
    have h1 : dictKeys (s.attribute_names.zip values) = s.attribute_names := by
      unfold dictKeys
      rw [map_fst_zip_eq_take, hlen, List.take_length]
    rw [h1]
    simp [dictKeys]
  · intro i hi hni
    show dictLookup (dictUpdate (dictOfZip s.attribute_names values) s.constants) _ = _
    rw [dictLookup_dictUpdate_of_not_mem _ _ _ hni]
    exact dictLookup_dictOfZip s.attribute_names values i hnd hi (by rw [hlen]; exact hi)
  · intro k v hm
    exact dictLookup_dictUpdate_of_mem _ _ _ _ hcd hm

/-- A metric function used in concrete examples. -/
def exMetric : Dict → Value := fun _ => 0

/-- A validity function used in concrete examples. -/
def exValid : Dict → Bool := fun _ => true

/-- A concrete sampler configuration used in examples: two sampled attribute
names and one constant. -/
def exS : Sampler :=
  { attribute_names := ["a", "b"]
    metric_function := exMetric
    valid_function := exValid
    constants := [("c", 5)] }

/-- C1 witness: `make_sample_spec` applied to the concrete sampler `exS` at
values `[1, 2]`. -/
theorem make_sample_spec_witness :
    dictLookup (exS.make_sample [1, 2]).attributes "a" = some 1 ∧
    dictLookup (exS.make_sample [1, 2]).attributes "c" = some 5 ∧
    "b" ∈ dictKeys (exS.make_sample [1, 2]).attributes := by
  have h := make_sample_spec exS [1, 2] (by decide) (by decide) (by decide)
  refine ⟨?_, ?_, ?_⟩
  · have h0 := h.2.1 0 (by decide) (by decide)
    simpa [exS] using h0
  · exact h.2.2.1 "c" 5 (by decide)
  · exact (h.1 "b").2 (Or.inl (by simp [exS]))

/-- C10: `make_sample` tolerates a length mismatch between the supplied values
and `attribute_names` (it is a total operation, no error is raised): the
positional pairing stops at the shorter sequence, so surplus values are
silently discarded — the result coincides with that of the truncated value
list — and with too few values the trailing attribute names are silently
absent from the result unless supplied by `constants`. -/
theorem make_sample_length_mismatch (s : Sampler) (values : List Value) :
    s.make_sample values = s.make_sample (values.take s.attribute_names.length) ∧
    (∀ a, a ∈ dictKeys (s.make_sample values).attributes ↔
        a ∈ s.attribute_names.take values.length ∨ a ∈ dictKeys s.constants) := by
  constructor
  · unfold Sampler.make_sample dictOfZip
    rw [zip_eq_zip_take s.attribute_names values]
  · intro a
    show a ∈ dictKeys (dictUpdate (dictOfZip s.attribute_names values) s.constants) ↔ _
    rw [mem_dictKeys_dictUpdate]
    unfold dictOfZip
    rw [mem_dictKeys_dictUpdate]
    have h1 : dictKeys (s.attribute_names.zip values) =
        s.attribute_names.take values.length := by
      unfold dictKeys
      rw [map_fst_zip_eq_take]
    rw [h1]
    simp [dictKeys]

/- The concrete samplers. -/

/-- Python exceptions raised by the embedded code. -/
inductive PyErr
  | keyError (key : String)
  | valueError (token : String)
  | ioError (path : String)
deriving DecidableEq

/-- Generic Python dict indexing for dicts whose values are not attribute
values (`self.kde_estimates[name]`); `none` models a `KeyError`. -/
def pyLookup {α : Type} (d : List (String × α)) (k : String) : Option α :=
  match d with
  | [] => none
  | p :: rest => if p.1 = k then some p.2 else pyLookup rest k

/-- `np.diag(v)`: the square diagonal matrix with `v` on the diagonal, as a
list of rows. -/
def npDiag (v : List Value) : List (List Value) :=
  (List.range v.length).map (fun i =>
    (List.range v.length).map (fun j => if i = j then v.getD i 0 else 0))

/-- Elementwise `** 2` on a numpy matrix. -/
def matElemSq (m : List (List Value)) : List (List Value) :=
  m.map (fun row => row.map (fun x => x ^ 2))

/-- `sampling.GaussianSampler.__init__` (the derived logger is incidental
and omitted). -/
structure GaussianSampler where
  toSampler : Sampler
  attribute_means : List Value
  attribute_stds : List Value

/-- `GaussianSampler.get_samples`.  The draw
`np.random.multivariate_normal(mean, cov, count)` is modelled by the oracle
`mvn`, which receives exactly the arguments the source passes
(`self.attribute_means`, `np.diag(self.attribute_stds) ** 2`, `count`) and
returns the drawn vectors; the eager Python 2 `map` over `make_sample` is a
`List.map`. -/
def GaussianSampler.get_samples (g : GaussianSampler)
    (mvn : List Value → List (List Value) → Nat → List (List Value))
    (count : Nat) : List Sample :=
  if count = 0 then []
  else (mvn g.attribute_means (matElemSq (npDiag g.attribute_stds)) count).map
    g.toSampler.make_sample

/-- A fitted `scipy.stats.gaussian_kde`, identified by the historical data
it was fitted on (estimates are immutable after construction). -/
abbrev KdeEstimate := List Value

/-- `sampling.KdeSampler` state: the base configuration and the per-name
fitted estimates. -/
structure KdeSampler where
  toSampler : Sampler
  kde_estimates : List (String × KdeEstimate)

/-- `KdeSampler.__init__`: `self.kde_estimates = dict([(name,
gaussian_kde(data)) for name, data in attribute_data.items() if name not in
constants])` — one estimate per entry of `attribute_data` whose name is not
a constant. -/
def KdeSampler.ofData (attribute_names : List String)
    (metric_function : Dict → Value) (valid_function : Dict → Bool)
    (constants : Dict) (attribute_data : List (String × KdeEstimate)) :
    KdeSampler :=
  { toSampler :=
      { attribute_names := attribute_names
        metric_function := metric_function
        valid_function := valid_function
        constants := constants }
    kde_estimates := attribute_data.filter (fun p => !dictContains constants p.1) }

/-- The loop of `KdeSampler.get_samples`, iterating over
`self.attribute_names`: `if name in self.constants:
data.append(count * [self.constants[name]])` and then — unconditionally,
the source has no `else` — `data.append(
self.kde_estimates[name].resample(count).tolist()[0])`, which raises
`KeyError` whenever `name` has no fitted estimate (in particular for every
constant name, excluded at construction).  `resample` is the draw oracle of
a fitted estimate; `.tolist()[0]` flattens scipy's `1 × count` array. -/
def kdeLoop (s : KdeSampler) (resample : KdeEstimate → Nat → List Value)
    (count : Nat) : List String → Except PyErr (List (List Value))
  | [] => Except.ok []
  | name :: rest =>
      let pre : List (List Value) :=
        match dictLookup s.toSampler.constants name with
        | some v => [List.replicate count v]
        | none => []
      match pyLookup s.kde_estimates name with
      | none => Except.error (PyErr.keyError name)
      | some est =>
          match kdeLoop s resample count rest with
          | Except.error e => Except.error e
          | Except.ok tl => Except.ok (pre ++ [resample est count] ++ tl)

/-- The minimum row length of a nonempty list of rows. -/
def minRowLen : List (List Value) → Nat
  | [] => 0
  | r :: rs => rs.foldl (fun m row => min m row.length) r.length

/-- Python `zip(*data)`: transpose, truncating at the shortest row; `zip()`
of no rows at all is empty. -/
def pyTranspose (rows : List (List Value)) : List (List Value) :=
  match rows with
  | [] => []
  | _ => (List.range (minRowLen rows)).map (fun i => rows.map (fun r => r.getD i 0))

/-- `KdeSampler.get_samples`: empty at `count == 0`, otherwise run the loop
over `attribute_names`, transpose the per-attribute rows with `zip(*data)`
and map `make_sample` over the resulting vectors. -/
def KdeSampler.get_samples (s : KdeSampler)
    (resample : KdeEstimate → Nat → List Value) (count : Nat) :
    Except PyErr (List Sample) :=
  if count = 0 then Except.ok []
  else
    match kdeLoop s resample count s.toSampler.attribute_names with
    | Except.error e => Except.error e
    | Except.ok data => Except.ok ((pyTranspose data).map s.toSampler.make_sample)

/-- `sampling.SamplerSet`: an ordered collection of samplers.  The
heterogeneous sampler objects are modelled by their `get_samples`
capability: a function from a requested count to the produced samples. -/
structure SamplerSet where
  samplers : List (Nat → List Sample)

/-- `SamplerSet.get_samples`:
`[s.get_samples(c) for s, c in zip(self.samplers, sample_counts)]`. -/
def SamplerSet.get_samples (ss : SamplerSet) (sample_counts : List Nat) :
    List (List Sample) :=
  (ss.samplers.zip sample_counts).map (fun p => p.1 p.2)

/-- `SamplerSet.__len__`. -/
def SamplerSet.size (ss : SamplerSet) : Nat := ss.samplers.length

/- Claim C2: KdeSampler with a constant attribute. -/

/-- Resample oracle used in concrete examples: draw zeros. -/
def exResample : KdeEstimate → Nat → List Value := fun _ c => List.replicate c 0

/-- A concrete `KdeSampler` whose attribute `"b"` is constant; its
`kde_estimates` dict therefore has no key `"b"`, since construction skips
names listed in `constants`. -/
def exKde : KdeSampler :=
  KdeSampler.ofData ["a", "b"] exMetric exValid [("b", 2)]
    [("a", [1, 2, 3]), ("b", [4, 5])]

/-- C2 (code bug): `KdeSampler.get_samples` raises `KeyError` as soon as some
name in `attribute_names` is a constant.  The loop body has no `else`: after
emitting the constant row it still evaluates `self.kde_estimates[name]`, and
construction excluded every constant name from `kde_estimates`.  The claimed
behaviour — emit `count` repetitions of the constant and resample only the
non-constant names — is the documented intent; the code fails instead. -/
theorem kde_constant_key_error :
    exKde.get_samples exResample 3 = Except.error (PyErr.keyError "b") := rfl

/- Claim C3: GaussianSampler. -/

/-- C3: for every `GaussianSampler` and `count > 0`, `get_samples` returns
exactly `count` samples, each the image under `make_sample` of the
corresponding vector drawn by `np.random.multivariate_normal` invoked with
mean vector `attribute_means` and covariance `np.diag(attribute_stds) ** 2`
— the matrix whose `(i, i)` entry is `attribute_stds[i] ** 2` and whose
off-diagonal entries are `0`, i.e. independent per-attribute noise with no
cross-attribute correlation.  The oracle hypothesis is numpy's contract
that `multivariate_normal(mean, cov, n)` returns `n` vectors. -/
theorem gaussian_get_samples_spec (g : GaussianSampler)
    (mvn : List Value → List (List Value) → Nat → List (List Value))
    (count : Nat)
    (hmvn : ∀ m c n, (mvn m c n).length = n) (hpos : 0 < count) :
    g.get_samples mvn count =
      (mvn g.attribute_means (matElemSq (npDiag g.attribute_stds)) count).map
        g.toSampler.make_sample ∧
    (g.get_samples mvn count).length = count ∧
    (∀ i j, i < g.attribute_stds.length → j < g.attribute_stds.length →
      ((matElemSq (npDiag g.attribute_stds)).getD i []).getD j 0 =
        if i = j then g.attribute_stds.getD i 0 ^ 2 else 0) := by
  have hne : count ≠ 0 := Nat.pos_iff_ne_zero.1 hpos
  refine ⟨by simp [GaussianSampler.get_samples, hne], ?_, ?_⟩
  · simp [GaussianSampler.get_samples, hne, hmvn]
  · intro i j hi hj
    have h1 : (matElemSq (npDiag g.attribute_stds)).getD i [] =
        (List.range g.attribute_stds.length).map
          (fun j => (if i = j then g.attribute_stds.getD i 0 else 0) ^ 2) := by
      unfold matElemSq npDiag
      rw [List.map_map]
      rw [List.getD_eq_getElem _ _ (by simpa using hi)]
      simp [Function.comp, List.map_map]
    rw [h1, List.getD_eq_getElem _ _ (by simpa using hj)]
    by_cases hij : i = j
    · simp [hij]
    · simp [hij]

/-- Multivariate-normal oracle used in concrete examples: always draw the
vector `[7, 8]`. -/
def exMvn : List Value → List (List Value) → Nat → List (List Value) :=
  fun _ _ n => List.replicate n [7, 8]

/-- A concrete `GaussianSampler`. -/
def exGauss : GaussianSampler :=
  { toSampler := exS, attribute_means := [0, 10], attribute_stds := [1, 3] }

/-- C3 witness: `gaussian_get_samples_spec` applied to the concrete Gaussian
sampler with oracle `exMvn` at count `2`. -/
theorem gaussian_get_samples_spec_witness :
    (exGauss.get_samples exMvn 2).length = 2 ∧
    ((matElemSq (npDiag exGauss.attribute_stds)).getD 1 []).getD 1 0 = 9 ∧
    ((matElemSq (npDiag exGauss.attribute_stds)).getD 0 []).getD 1 0 = 0 := by
  have h := gaussian_get_samples_spec exGauss exMvn 2
    (by intro m c n; simp [exMvn]) (by decide)
  refine ⟨h.2.1, ?_, ?_⟩
  · have h11 := h.2.2 1 1 (by decide) (by decide)
    rw [h11]
    norm_num [exGauss]
  · have h01 := h.2.2 0 1 (by decide) (by decide)
    rw [h01]
    norm_num

/- Claims C5 and C6: SamplerSet. -/

/-- C5: `SamplerSet.get_samples` pairs samplers and counts positionally and
invokes the samplers in order: with inputs of equal length `n` the output
has length `n` and entry `i` is exactly sampler `i` invoked on
`sample_counts[i]`; whenever every wrapped sampler meets the `get_samples`
contract (`count` requested, `count` produced), entry `i` has length
`sample_counts[i]`. -/
theorem sampler_set_get_samples_spec (ss : SamplerSet) (cs : List Nat)
    (hlen : cs.length = ss.samplers.length)
    (hcontract : ∀ f ∈ ss.samplers, ∀ c, (f c).length = c) :
    (ss.get_samples cs).length = cs.length ∧
    (∀ i, i < cs.length →
      (ss.get_samples cs).getD i [] =
        (ss.samplers.getD i (fun _ => [])) (cs.getD i 0)) ∧
    (∀ i, i < cs.length →
      ((ss.get_samples cs).getD i []).length = cs.getD i 0) := by
  have hout : ∀ i, i < cs.length →
      (ss.get_samples cs).getD i [] =
        (ss.samplers.getD i (fun _ => [])) (cs.getD i 0) := by
    intro i hi
    have his : i < ss.samplers.length := hlen ▸ hi
    have hzip : i < (ss.samplers.zip cs).length := by
      simp [List.length_zip]
      omega
    unfold SamplerSet.get_samples
    rw [List.getD_eq_getElem _ _ (by simpa using hzip)]
    rw [List.getElem_map, List.getElem_zip]
    rw [List.getD_eq_getElem _ _ his, List.getD_eq_getElem _ _ hi]
  refine ⟨?_, hout, ?_⟩
  · simp [SamplerSet.get_samples, List.length_zip]
    omega
  · intro i hi
    rw [hout i hi]
    have his : i < ss.samplers.length := hlen ▸ hi
    have hmem : ss.samplers.getD i (fun _ => []) ∈ ss.samplers := by
      rw [List.getD_eq_getElem _ _ his]
      exact List.getElem_mem his
    exact hcontract _ hmem _

/-- A concrete sample used in examples. -/
def exSample : Sample :=
  { attributes := [("a", 1)], metric_function := exMetric, valid_function := exValid }

/-- A concrete sampler capability meeting the `get_samples` contract. -/
def exCap : Nat → List Sample := fun c => List.replicate c exSample

/-- A two-sampler set used in examples. -/
def exSet : SamplerSet := { samplers := [exCap, exCap] }

/-- C5 witness: `sampler_set_get_samples_spec` applied to the two-sampler set
with counts `[2, 3]`. -/
theorem sampler_set_get_samples_spec_witness :
    (exSet.get_samples [2, 3]).length = 2 ∧
    ((exSet.get_samples [2, 3]).getD 1 []).length = 3 := by
  have hc : ∀ f ∈ exSet.samplers, ∀ c, (f c).length = c := by
    intro f hf c
    simp only [exSet, List.mem_cons, List.mem_singleton] at hf
    rcases hf with rfl | rfl | hf
    · simp [exCap]
    · simp [exCap]
    · simp at hf
  have h := sampler_set_get_samples_spec exSet [2, 3] (by decide) hc
  exact ⟨by simpa using h.1, by simpa using h.2.2 1 (by decide)⟩

/-- C6 counterexample: with two wrapped samplers and a single-entry
`sample_counts`, the call does not fail: `zip` silently truncates, the
second sampler is never consulted, and a normal one-entry result is
produced. -/
theorem sampler_set_mismatch_counterexample :
    exSet.samplers.length = 2 ∧
    exSet.get_samples [3] = [List.replicate 3 exSample] := ⟨rfl, rfl⟩

/-- C6 amended: a `sample_counts` whose length differs from the number of
wrapped samplers is not surfaced as an error by `SamplerSet.get_samples`:
the call succeeds, silently truncating to the shorter of the two sequences
(positional pairing on the common prefix, surplus samplers or counts
ignored). -/
theorem sampler_set_mismatch_truncates (ss : SamplerSet) (cs : List Nat) :
    (ss.get_samples cs).length = min ss.samplers.length cs.length ∧
    (∀ i, i < min ss.samplers.length cs.length →
      (ss.get_samples cs).getD i [] =
        (ss.samplers.getD i (fun _ => [])) (cs.getD i 0)) := by
  constructor
  · simp [SamplerSet.get_samples, List.length_zip]
  · intro i hi
    have his : i < ss.samplers.length := lt_of_lt_of_le hi (min_le_left _ _)
    have hic : i < cs.length := lt_of_lt_of_le hi (min_le_right _ _)
    have hzip : i < (ss.samplers.zip cs).length := by
      simp [List.length_zip]
      omega
    unfold SamplerSet.get_samples
    rw [List.getD_eq_getElem _ _ (by simpa using hzip)]
    rw [List.getElem_map, List.getElem_zip]
    rw [List.getD_eq_getElem _ _ his, List.getD_eq_getElem _ _ hic]

/-- C6 witness: the amended statement applied at the concrete mismatched
call (two samplers, one count). -/
theorem sampler_set_mismatch_truncates_witness :
    (exSet.get_samples [3]).length = min 2 1 ∧
    (exSet.get_samples [3]).getD 0 [] = exCap 3 := by
  have h := sampler_set_mismatch_truncates exSet [3]
  refine ⟨by simpa [exSet] using h.1, ?_⟩
  have h0 := h.2 0 (by simp [exSet])
  simpa [exSet] using h0

/- ToolSampler. -/

/-- Digits to a natural number. -/
def digitsToNat (cs : List Char) : Nat :=
  cs.foldl (fun n c => 10 * n + (c.toNat - 48)) 0

/-- The rational value of a parsed decimal `±I.F`:
`(I * 10^k + F) / 10^k` with `k` fractional digits, negated when `neg`. -/
def decimalValue (neg : Bool) (intDigits fracDigits : List Char) : Value :=
  let k := fracDigits.length
  let n : Int := digitsToNat intDigits * 10 ^ k + digitsToNat fracDigits
  mkRat (if neg then -n else n) (10 ^ k)

/-- Python `float(s)` on the decimal fragment the buffer format uses:
optional surrounding whitespace, optional sign, digits with one optional
decimal point (`"1"`, `"1."`, `".5"`, `"-2.75"`); anything else — in
particular any non-numeric field — raises `ValueError`, modelled as `none`.
Exponent, `inf` and `nan` forms do not occur in the tool's fixed-point
buffers and are not modelled. -/
def pyFloat? (s : String) : Option Value :=
  let cs0 := s.data.dropWhile Char.isWhitespace
  let cs := (cs0.reverse.dropWhile Char.isWhitespace).reverse
  let signed : Bool × List Char :=
    match cs with
    | '-' :: more => (true, more)
    | '+' :: more => (false, more)
    | _ => (false, cs)
  let body := signed.2
  let intPart := body.takeWhile Char.isDigit
  let rest := body.dropWhile Char.isDigit
  match rest with
  | [] =>
      if intPart.isEmpty then none
      else some (decimalValue signed.1 intPart [])
  | '.' :: fracPart =>
      let frac := fracPart.takeWhile Char.isDigit
      if !(fracPart.dropWhile Char.isDigit).isEmpty then none
      else if intPart.isEmpty && frac.isEmpty then none
      else some (decimalValue signed.1 intPart frac)
  | _ => none

/-- Python `str.rstrip()`: drop trailing whitespace (for a line read from a
file, the newline). -/
def rstrip (s : String) : String :=
  String.mk ((s.data.reverse.dropWhile Char.isWhitespace).reverse)

/-- Python `s.split(sep)` for a one-character separator, on the character
list: splitting the empty string yields one empty field. -/
def pySplitChars (sep : Char) : List Char → List (List Char)
  | [] => [[]]
  | c :: rest =>
      match pySplitChars sep rest with
      | [] => if c = sep then [[], []] else [[c]]
      | f :: fs => if c = sep then [] :: f :: fs else (c :: f) :: fs

/-- Python `s.split(sep)` for a one-character separator. -/
def pySplit (sep : Char) (s : String) : List String :=
  (pySplitChars sep s.data).map String.mk

/-- One data line of the sample buffer: `map(float, line.split(','))`,
eager in Python 2, raising `ValueError` at the first non-numeric field. -/
def parseLine (line : String) : Except PyErr (List Value) :=
  (pySplit ',' line).mapM (fun t =>
    match pyFloat? t with
    | some v => Except.ok v
    | none => Except.error (PyErr.valueError t))

/-- One observable side effect of `ToolSampler.get_samples`, in order of
occurrence. -/
inductive Effect
  | addNoise (params : List Value) (count : Nat)
  | writeParams (path : String) (rows : List (List Value))
  | runScript (cmd : String)
  | readBuffer (path : String)
  | warn (msg : String)
deriving DecidableEq

/-- Whether an effect is a logged warning. -/
def Effect.isWarn : Effect → Bool
  | Effect.warn _ => true
  | _ => false

/-- The external world of one `ToolSampler.get_samples` call: the noise
model (`utils.NoiseModel.add_noise`), the exit status of the invoked script
(never inspected by the source), and the lines of `sample_buffer` once the
external process has run (`none`: the file is missing, so `open` raises
`IOError`). -/
structure ToolEnv where
  addNoise : List Value → Nat → List (List Value)
  scriptExit : Int
  bufferAfter : Option (List String)

/-- `sampling.ToolSampler.__init__` (the derived logger is incidental and
omitted; the noise model collaborator lives in `ToolEnv`). -/
structure ToolSampler where
  toSampler : Sampler
  params : List Value
  param_buffer : String
  sample_buffer : String
  script_path : String

/-- `ToolSampler.get_samples`: `[]` at `count == 0`, before any effect;
otherwise obtain `count` noisy parameter vectors from the noise model, write
them to `param_buffer` (`np.savetxt`, recorded as one write effect carrying
the written vectors), run `'source ' + self.script_path` synchronously with
the exit status unchecked, open `sample_buffer` (raising `IOError` when
missing), read the header line (`rstrip`, split on `','`, one warning
logged when it differs from `attribute_names`), parse each remaining line
with `map(float, line.split(',')))` and map `make_sample` over the parsed
rows.  Returns the effect trace alongside the result. -/
def ToolSampler.get_samples (t : ToolSampler) (env : ToolEnv) (count : Nat) :
    List Effect × Except PyErr (List Sample) :=
  if count = 0 then ([], Except.ok [])
  else
    let parameter_values := env.addNoise t.params count
    let tr :=
      [Effect.addNoise t.params count,
       Effect.writeParams t.param_buffer parameter_values,
       Effect.runScript ("source " ++ t.script_path)]
    match env.bufferAfter with
    | none => (tr, Except.error (PyErr.ioError t.sample_buffer))
    | some lines =>
        let attributes := pySplit ',' (rstrip (lines.headD ""))
        let warnTr :=
          if attributes ≠ t.toSampler.attribute_names then
            [Effect.warn "Attribute name mismatch encountered in buffer: trying to ignore"]
          else []
        let tr2 := tr ++ [Effect.readBuffer t.sample_buffer] ++ warnTr
        match lines.tail.mapM parseLine with
        | Except.error e => (tr2, Except.error e)
        | Except.ok rows => (tr2, Except.ok (rows.map t.toSampler.make_sample))

/- Claim C4: count == 0 everywhere. -/

/-- C4: every concrete sampler returns an empty sequence at `count == 0`
with no observable side effect: the Gaussian and KDE samplers return `[]`
identically in the draw oracle (no random draw is consumed), and
`ToolSampler` returns `[]` with an empty effect trace — no noise-model
call, no write to `param_buffer`, no external process invocation and no
read of `sample_buffer` — in every environment. -/
theorem get_samples_zero_no_effects :
    (∀ (g : GaussianSampler)
      (mvn : List Value → List (List Value) → Nat → List (List Value)),
      g.get_samples mvn 0 = []) ∧
    (∀ (s : KdeSampler) (resample : KdeEstimate → Nat → List Value),
      s.get_samples resample 0 = Except.ok []) ∧
    (∀ (t : ToolSampler) (env : ToolEnv),
      t.get_samples env 0 = ([], Except.ok [])) :=
  ⟨fun _ _ => rfl, fun _ _ => rfl, fun _ _ => rfl⟩

/- Claims C7, C8, C9: the tool buffer. -/

theorem mapM_ok_length {α β : Type} (f : α → Except PyErr β) :
    ∀ (l : List α) (l' : List β), l.mapM f = Except.ok l' → l'.length = l.length := by
  intro l
  induction l with
  | nil =>
    intro l' h
    simp only [List.mapM_nil, pure, Except.pure] at h
    cases h
    rfl
  | cons a l ih =>
    intro l' h
    rw [List.mapM_cons] at h
    cases hfa : f a with
    | error e =>
      rw [hfa] at h
      simp only [bind, Except.bind] at h
      cases h
    | ok b =>
      rw [hfa] at h
      simp only [bind, Except.bind] at h
      cases hml : l.mapM f with
      | error e =>
        rw [hml] at h
        cases h
      | ok bs =>
        rw [hml] at h
        simp only [pure, Except.pure] at h
        cases h
        simp [ih bs hml]

/-- C8: for `count > 0`, when the sample-buffer header disagrees with
`attribute_names` but every data row parses, `ToolSampler.get_samples`
still succeeds — producing one sample per data row, built positionally by
`make_sample` — and its effect trace holds exactly one mismatch warning;
the mismatch is never a failure. -/
theorem tool_header_mismatch_spec (t : ToolSampler) (env : ToolEnv)
    (count : Nat) (hline : String) (rest : List String)
    (parsed : List (List Value))
    (hpos : 0 < count)
    (hbuf : env.bufferAfter = some (hline :: rest))
    (hmis : pySplit ',' (rstrip hline) ≠ t.toSampler.attribute_names)
    (hparse : rest.mapM parseLine = Except.ok parsed) :
    (t.get_samples env count).2 =
      Except.ok (parsed.map t.toSampler.make_sample) ∧
    ((t.get_samples env count).1.countP Effect.isWarn) = 1 ∧
    parsed.length = rest.length := by
  have hne : count ≠ 0 := Nat.pos_iff_ne_zero.1 hpos
  have hval : t.get_samples env count =
      ([Effect.addNoise t.params count,
        Effect.writeParams t.param_buffer (env.addNoise t.params count),
        Effect.runScript ("source " ++ t.script_path),
        Effect.readBuffer t.sample_buffer,
        Effect.warn "Attribute name mismatch encountered in buffer: trying to ignore"],
       Except.ok (parsed.map t.toSampler.make_sample)) := by
    unfold ToolSampler.get_samples
    rw [if_neg hne, hbuf]
    simp only [List.headD_cons, List.tail_cons, if_pos hmis, hparse]
    rfl
  rw [hval]
  refine ⟨rfl, ?_, mapM_ok_length _ _ _ hparse⟩
  simp [List.countP_cons, Effect.isWarn]

/-- A concrete `ToolSampler` used in examples. -/
def exTool : ToolSampler :=
  { toSampler :=
      { attribute_names := ["a", "b"]
        metric_function := exMetric
        valid_function := exValid
        constants := [] }
    params := [1, 2]
    param_buffer := "params.csv"
    sample_buffer := "samples.csv"
    script_path := "run.sh" }

/-- Environment with a mismatched buffer header and one good data row. -/
def exEnvHeader : ToolEnv :=
  { addNoise := fun p c => List.replicate c p
    scriptExit := 0
    bufferAfter := some ["x,y", "1.5,2"] }

/-- C8 witness: `tool_header_mismatch_spec` at the concrete mismatched-header
call. -/
theorem tool_header_mismatch_spec_witness :
    (exTool.get_samples exEnvHeader 2).2 =
      Except.ok ([[mkRat 3 2, 2]].map exTool.toSampler.make_sample) ∧
    ((exTool.get_samples exEnvHeader 2).1.countP Effect.isWarn) = 1 := by
  have h := tool_header_mismatch_spec exTool exEnvHeader 2 "x,y" ["1.5,2"]
    [[mkRat 3 2, 2]] (by decide) rfl (by decide) (by rfl)
  exact ⟨h.1, h.2.1⟩

/-- Environment for the silent-failure scenario: the external process exits
nonzero, leaving a stale buffer with a matching header and one stale row. -/
def exEnvStale : ToolEnv :=
  { addNoise := fun p c => List.replicate c p
    scriptExit := 1
    bufferAfter := some ["a,b", "1,2"] }

/-- C7 (code bug): the source never checks the external process.
`subprocess.call`'s exit status is ignored — the failed call is
indistinguishable from the same call with exit status `0` — and a stale or
short `sample_buffer` is parsed as if the tool had succeeded: requesting `3`
samples while the failed tool left a single stale row silently returns
`Except.ok` with that one partial sample instead of reporting the failure. -/
theorem tool_silent_failure :
    (exTool.get_samples exEnvStale 3).2 =
      Except.ok [exTool.toSampler.make_sample [1, 2]] ∧
    exTool.get_samples exEnvStale 3 =
      exTool.get_samples { exEnvStale with scriptExit := 0 } 3 := ⟨rfl, rfl⟩

/-- Environment whose buffer has a non-numeric field in its second data
row. -/
def exEnvBadRow : ToolEnv :=
  { addNoise := fun p c => List.replicate c p
    scriptExit := 0
    bufferAfter := some ["a,b", "1,2", "3,xyz"] }

/-- C9 (code bug): a non-numeric field aborts the call with the bare
`ValueError` raised by `float`.  That error names only the offending token
(`"xyz"` here) and not the offending row — two rows sharing the token are
indistinguishable — and the source wraps it in no `ParseError` carrying row
information; the rows parsed before the failure are discarded. -/
theorem tool_parse_value_error :
    (exTool.get_samples exEnvBadRow 2).2 =
      Except.error (PyErr.valueError "xyz") := rfl

end MabVlsi
